import Mathlib

/-!
Shallow embedding of the ICP Rust boilerplate persistent record store
(`src/icp_rust_boilerplate_backend/src`): the validating CRUD modules
`student.rs`, `book.rs`, `loan.rs`, sharing the single durable `ID_COUNTER`
cell declared in `lib.rs` (initialized to 0; `Cell::set` persists the new
value and returns the previous one, so each create receives the
pre-increment counter value).

Modelling choices:
- `u64` values (ids, timestamps, the counter) are `Nat`; the counter is
  bumped by 1 per create and would need 2^64 successful creates to wrap,
  so wrap-around is not modelled.
- Each `StableBTreeMap` is an ordered association list `List (Nat × α)`
  sorted by key; `tGet` / `tInsert` / `tRemove` model its get / insert /
  remove operations.
- `ic_cdk::api::time()` is the injected time capability: every mutating
  entry point takes the observed time `t` as an explicit argument.
- Rust `str::trim` is `rustTrim`, dropping the Unicode white-space
  characters (`char::is_whitespace`) from both ends.
- Each `#[ic_cdk::update]` handler becomes `Store → args → (result, Store)`;
  each `#[ic_cdk::query]` handler becomes `Store → args → result`.
-/

/-- Unicode code points with the White_Space property, as recognised by
Rust's `char::is_whitespace` (used by `str::trim`). -/
def isRustWhitespace (c : Char) : Bool :=
  let n := c.toNat
  n == 0x9 || n == 0xA || n == 0xB || n == 0xC || n == 0xD || n == 0x20 ||
  n == 0x85 || n == 0xA0 || n == 0x1680 ||
  (decide (0x2000 ≤ n) && decide (n ≤ 0x200A)) ||
  n == 0x2028 || n == 0x2029 || n == 0x202F || n == 0x205F || n == 0x3000

/-- Rust `str::trim`: remove leading and trailing white-space characters. -/
def rustTrim (s : String) : String :=
  String.mk (((s.data.dropWhile isRustWhitespace).reverse.dropWhile
    isRustWhitespace).reverse)

/-- Rust `payload.field.trim().is_empty()`, the validation test used by the
create and update handlers of `student.rs` and `book.rs`. -/
def trimIsEmpty (s : String) : Bool :=
  (rustTrim s).data.isEmpty

/-- The `Error` enum shared by all three entity modules (declared in the
crate root): `NotFound { msg }` and `InvalidInput { msg }`. -/
inductive Error where
  | NotFound (msg : String)
  | InvalidInput (msg : String)
deriving DecidableEq

/-- `Student` record of `student.rs` (validating variant): id, name, email,
created_at, updated_at. -/
structure Student where
  id : Nat
  name : String
  email : String
  created_at : Nat
  updated_at : Option Nat
deriving DecidableEq

/-- `StudentPayload` of `student.rs`: the mutable fields only. -/
structure StudentPayload where
  name : String
  email : String
deriving DecidableEq

/-- `Book` record of `book.rs`. -/
structure Book where
  id : Nat
  title : String
  author : String
  created_at : Nat
  updated_at : Option Nat
deriving DecidableEq

/-- `BookPayload` of `book.rs`. -/
structure BookPayload where
  title : String
  author : String
deriving DecidableEq

/-- `Loan` record of `loan.rs`. -/
structure Loan where
  id : Nat
  student_id : Nat
  book_id : Nat
  loan_date : Nat
  created_at : Nat
  updated_at : Option Nat
deriving DecidableEq

/-- `LoanPayload` of `loan.rs`. -/
structure LoanPayload where
  student_id : Nat
  book_id : Nat
  loan_date : Nat
deriving DecidableEq

/-- `StableBTreeMap::get`: the value stored at key `k`, if any. -/
def tGet {α : Type} : List (Nat × α) → Nat → Option α
  | [], _ => none
  | (k, v) :: rest, id => if k = id then some v else tGet rest id

/-- `StableBTreeMap::insert`: upsert at key `k`, keeping the list ordered
by key (entries with smaller keys stay in front; an equal key is
overwritten). -/
def tInsert {α : Type} (k : Nat) (v : α) : List (Nat × α) → List (Nat × α)
  | [] => [(k, v)]
  | (k0, v0) :: rest =>
    if k < k0 then (k, v) :: (k0, v0) :: rest
    else if k = k0 then (k, v) :: rest
    else (k0, v0) :: tInsert k v rest

/-- `StableBTreeMap::remove`: drop the entry at key `k`, if present. -/
def tRemove {α : Type} (k : Nat) : List (Nat × α) → List (Nat × α)
  | [] => []
  | (k0, v0) :: rest => if k0 = k then rest else (k0, v0) :: tRemove k rest

/-- The whole stable state: the shared `ID_COUNTER` cell plus the three
per-kind `StableBTreeMap` tables (`STUDENT_STORAGE`, `BOOK_STORAGE`,
`LOAN_STORAGE`). -/
structure Store where
  counter : Nat
  students : List (Nat × Student)
  books : List (Nat × Book)
  loans : List (Nat × Loan)
deriving DecidableEq

/-- The fresh store: `ID_COUNTER` is initialized to 0 (`IdCell::init(_, 0)`
in `lib.rs`) and every table starts empty. -/
def emptyStore : Store :=
  { counter := 0, students := [], books := [], loans := [] }

deriving instance DecidableEq for Except

/-- `get_student` (`#[ic_cdk::query]`). -/
def get_student (st : Store) (id : Nat) : Except Error Student :=
  match tGet st.students id with
  | some student => Except.ok student
  | none => Except.error (Error.NotFound
      ("A student with id=" ++ toString id ++ " not found."))

/-- `get_all_students` (`#[ic_cdk::query]`): all values in ascending key
order, always `Ok`. -/
def get_all_students (st : Store) : Except Error (List Student) :=
  Except.ok (st.students.map (fun kv => kv.2))

/-- `add_student` (`#[ic_cdk::update]`): validate, allocate the next id
(pre-increment counter value), build the record stamped `created_at = t`,
insert it, return it. -/
def add_student (st : Store) (t : Nat) (payload : StudentPayload) :
    Except Error Student × Store :=
  if trimIsEmpty payload.name || trimIsEmpty payload.email then
    (Except.error (Error.InvalidInput "Name and email cannot be empty."), st)
  else
    let id := st.counter
    let st1 : Store := { st with counter := st.counter + 1 }
    let student : Student :=
      { id := id, name := payload.name, email := payload.email,
        created_at := t, updated_at := none }
    (Except.ok student,
     { st1 with students := tInsert student.id student st1.students })

/-- `update_student` (`#[ic_cdk::update]`): validate, look the record up,
replace the payload-carried fields, set `updated_at = Some t`, write the
record back at its own id, return it. -/
def update_student (st : Store) (t : Nat) (id : Nat)
    (payload : StudentPayload) : Except Error Student × Store :=
  if trimIsEmpty payload.name || trimIsEmpty payload.email then
    (Except.error (Error.InvalidInput "Name and email cannot be empty."), st)
  else
    match tGet st.students id with
    | some student0 =>
      let student : Student := { student0 with
        name := payload.name
        email := payload.email
        updated_at := some t }
      (Except.ok student,
       { st with students := tInsert student.id student st.students })
    | none =>
      (Except.error (Error.NotFound
        ("Couldn\x27t update a student with id=" ++ toString id ++
         ". Student not found.")), st)

/-- `delete_student` (`#[ic_cdk::update]`): remove and return the record. -/
def delete_student (st : Store) (id : Nat) : Except Error Student × Store :=
  match tGet st.students id with
  | some student =>
    (Except.ok student, { st with students := tRemove id st.students })
  | none =>
    (Except.error (Error.NotFound
      ("Couldn\x27t delete a student with id=" ++ toString id ++
       ". Student not found.")), st)

/-- `get_book` (`#[ic_cdk::query]`). -/
def get_book (st : Store) (id : Nat) : Except Error Book :=
  match tGet st.books id with
  | some book => Except.ok book
  | none => Except.error (Error.NotFound
      ("A book with id=" ++ toString id ++ " not found."))

/-- `get_all_books` (`#[ic_cdk::query]`). -/
def get_all_books (st : Store) : Except Error (List Book) :=
  Except.ok (st.books.map (fun kv => kv.2))

/-- `add_book` (`#[ic_cdk::update]`). -/
def add_book (st : Store) (t : Nat) (payload : BookPayload) :
    Except Error Book × Store :=
  if trimIsEmpty payload.title || trimIsEmpty payload.author then
    (Except.error (Error.InvalidInput "Title and author cannot be empty."), st)
  else
    let id := st.counter
    let st1 : Store := { st with counter := st.counter + 1 }
    let book : Book :=
      { id := id, title := payload.title, author := payload.author,
        created_at := t, updated_at := none }
    (Except.ok book, { st1 with books := tInsert book.id book st1.books })

/-- `update_book` (`#[ic_cdk::update]`). -/
def update_book (st : Store) (t : Nat) (id : Nat) (payload : BookPayload) :
    Except Error Book × Store :=
  if trimIsEmpty payload.title || trimIsEmpty payload.author then
    (Except.error (Error.InvalidInput "Title and author cannot be empty."), st)
  else
    match tGet st.books id with
    | some book0 =>
      let book : Book := { book0 with
        title := payload.title
        author := payload.author
        updated_at := some t }
      (Except.ok book, { st with books := tInsert book.id book st.books })
    | none =>
      (Except.error (Error.NotFound
        ("Couldn\x27t update a book with id=" ++ toString id ++
         ". Book not found.")), st)

/-- `delete_book` (`#[ic_cdk::update]`). -/
def delete_book (st : Store) (id : Nat) : Except Error Book × Store :=
  match tGet st.books id with
  | some book => (Except.ok book, { st with books := tRemove id st.books })
  | none =>
    (Except.error (Error.NotFound
      ("Couldn\x27t delete a book with id=" ++ toString id ++
       ". Book not found.")), st)

/-- `get_loan` (`#[ic_cdk::query]`). -/
def get_loan (st : Store) (id : Nat) : Except Error Loan :=
  match tGet st.loans id with
  | some loan => Except.ok loan
  | none => Except.error (Error.NotFound
      ("A loan with id=" ++ toString id ++ " not found."))

/-- `get_all_loans` (`#[ic_cdk::query]`). -/
def get_all_loans (st : Store) : Except Error (List Loan) :=
  Except.ok (st.loans.map (fun kv => kv.2))

/-- `add_loan` (`#[ic_cdk::update]`): the numeric required fields must be
non-zero. -/
def add_loan (st : Store) (t : Nat) (payload : LoanPayload) :
    Except Error Loan × Store :=
  if payload.student_id == 0 || payload.book_id == 0 ||
      payload.loan_date == 0 then
    (Except.error (Error.InvalidInput
      "Student ID, Book ID, and Loan Date must be non-zero."), st)
  else
    let id := st.counter
    let st1 : Store := { st with counter := st.counter + 1 }
    let loan : Loan :=
      { id := id, student_id := payload.student_id,
        book_id := payload.book_id, loan_date := payload.loan_date,
        created_at := t, updated_at := none }
    (Except.ok loan, { st1 with loans := tInsert loan.id loan st1.loans })

/-- `update_loan` (`#[ic_cdk::update]`). -/
def update_loan (st : Store) (t : Nat) (id : Nat) (payload : LoanPayload) :
    Except Error Loan × Store :=
  if payload.student_id == 0 || payload.book_id == 0 ||
      payload.loan_date == 0 then
    (Except.error (Error.InvalidInput
      "Student ID, Book ID, and Loan Date must be non-zero."), st)
  else
    match tGet st.loans id with
    | some loan0 =>
      let loan : Loan := { loan0 with
        student_id := payload.student_id
        book_id := payload.book_id
        loan_date := payload.loan_date
        updated_at := some t }
      (Except.ok loan, { st with loans := tInsert loan.id loan st.loans })
    | none =>
      (Except.error (Error.NotFound
        ("Couldn\x27t update a loan with id=" ++ toString id ++
         ". Loan not found.")), st)

/-- `delete_loan` (`#[ic_cdk::update]`). -/
def delete_loan (st : Store) (id : Nat) : Except Error Loan × Store :=
  match tGet st.loans id with
  | some loan => (Except.ok loan, { st with loans := tRemove id st.loans })
  | none =>
    (Except.error (Error.NotFound
      ("Couldn\x27t delete a loan with id=" ++ toString id ++
       ". Loan not found.")), st)

/-- One mutating call of the public surface (queries are pure and need no
step). Each create/update op carries the time `t` the host clock shows
during that call. -/
inductive Op where
  | opAddStudent (t : Nat) (p : StudentPayload)
  | opUpdateStudent (t : Nat) (id : Nat) (p : StudentPayload)
  | opDeleteStudent (id : Nat)
  | opAddBook (t : Nat) (p : BookPayload)
  | opUpdateBook (t : Nat) (id : Nat) (p : BookPayload)
  | opDeleteBook (id : Nat)
  | opAddLoan (t : Nat) (p : LoanPayload)
  | opUpdateLoan (t : Nat) (id : Nat) (p : LoanPayload)
  | opDeleteLoan (id : Nat)
deriving DecidableEq

/-- The store after one call. -/
def step (st : Store) : Op → Store
  | .opAddStudent t p => (add_student st t p).2
  | .opUpdateStudent t id p => (update_student st t id p).2
  | .opDeleteStudent id => (delete_student st id).2
  | .opAddBook t p => (add_book st t p).2
  | .opUpdateBook t id p => (update_book st t id p).2
  | .opDeleteBook id => (delete_book st id).2
  | .opAddLoan t p => (add_loan st t p).2
  | .opUpdateLoan t id p => (update_loan st t id p).2
  | .opDeleteLoan id => (delete_loan st id).2

/-- The store after a sequence of calls. -/
def runFrom (st : Store) : List Op → Store
  | [] => st
  | op :: rest => runFrom (step st op) rest

/-- The ids handed out by the ID Allocator during one call: the id of the
record a successful create returns, nothing otherwise. -/
def createdIds (st : Store) : Op → List Nat
  | .opAddStudent t p =>
    match (add_student st t p).1 with
    | Except.ok r => [r.id]
    | Except.error _ => []
  | .opAddBook t p =>
    match (add_book st t p).1 with
    | Except.ok r => [r.id]
    | Except.error _ => []
  | .opAddLoan t p =>
    match (add_loan st t p).1 with
    | Except.ok r => [r.id]
    | Except.error _ => []
  | _ => []

/-- All ids issued across a sequence of calls, in issue order. -/
def issuedIds (st : Store) : List Op → List Nat
  | [] => []
  | op :: rest => createdIds st op ++ issuedIds (step st op) rest

/-- The time the host clock shows during a call (`none` for deletes, which
never read the clock). -/
def opTime : Op → Option Nat
  | .opAddStudent t _ => some t
  | .opUpdateStudent t _ _ => some t
  | .opDeleteStudent _ => none
  | .opAddBook t _ => some t
  | .opUpdateBook t _ _ => some t
  | .opDeleteBook _ => none
  | .opAddLoan t _ => some t
  | .opUpdateLoan t _ _ => some t
  | .opDeleteLoan _ => none

/-- The time source is non-decreasing along the sequence, starting no
earlier than `lo`. -/
def timesMono (lo : Nat) : List Op → Prop
  | [] => True
  | op :: rest =>
    match opTime op with
    | some t => lo ≤ t ∧ timesMono t rest
    | none => timesMono lo rest

/-- `created_at <= updated_at` whenever `updated_at` is present, for one
(created_at, updated_at) pair. -/
def tsOK (c : Nat) (u : Option Nat) : Prop :=
  match u with
  | some x => c ≤ x
  | none => True

/-- Both stamps of the pair are at most `t`. -/
def tsLe (c : Nat) (u : Option Nat) (t : Nat) : Prop :=
  c ≤ t ∧ match u with
          | some x => x ≤ t
          | none => True

/-- Every record of every table satisfies `created_at <= updated_at`
whenever `updated_at` is present. -/
def storeTimesOK (st : Store) : Prop :=
  (∀ kv ∈ st.students, tsOK kv.2.created_at kv.2.updated_at) ∧
  (∀ kv ∈ st.books, tsOK kv.2.created_at kv.2.updated_at) ∧
  (∀ kv ∈ st.loans, tsOK kv.2.created_at kv.2.updated_at)

/-- Every timestamp stored anywhere is at most `t`. -/
def storeTimesLe (st : Store) (t : Nat) : Prop :=
  (∀ kv ∈ st.students, tsLe kv.2.created_at kv.2.updated_at t) ∧
  (∀ kv ∈ st.books, tsLe kv.2.created_at kv.2.updated_at t) ∧
  (∀ kv ∈ st.loans, tsLe kv.2.created_at kv.2.updated_at t)

/-- A student record is reachable when some sequence of calls starting from
the fresh store leaves it in the student table. -/
def studentReachable (x : Student) : Prop :=
  ∃ ops : List Op, ∃ kv ∈ (runFrom emptyStore ops).students, kv.2 = x

/-- `BoundedStorable::MAX_SIZE` declared for each of Student, Book, Loan. -/
def MAX_SIZE : Nat := 1024

/-- Well-formedness of the book table: keys strictly ascending, each entry
keyed by its record's own id, and every key below the shared counter. -/
def booksWF (st : Store) : Prop :=
  (st.books.map Prod.fst).Pairwise (· < ·) ∧
  ∀ kv ∈ st.books, kv.1 = kv.2.id ∧ kv.1 < st.counter

/-- A run of consecutive creates on the book service: each element carries
the time the clock shows during that call and the payload. -/
def runBooks (st : Store) : List (Nat × BookPayload) → Store
  | [] => st
  | tp :: rest => runBooks (add_book st tp.1 tp.2).2 rest

/-- A name of n+1 letters a (no surrounding white space). -/
def aName (n : Nat) : String :=
  String.mk (List.replicate (n + 1) 'a')

/-- The student record that `add_student` builds on the fresh store at time
0 for the payload `(aName n, "e")`. -/
def aStudent (n : Nat) : Student :=
  { id := 0, name := aName n, email := "e", created_at := 0,
    updated_at := none }

theorem tGet_tInsert_self {α : Type} (l : List (Nat × α)) (k : Nat) (v : α) :
    tGet (tInsert k v l) k = some v := by
  induction l with
  | nil => simp [tInsert, tGet]
  | cons hd tl ih =>
    obtain ⟨k0, v0⟩ := hd
    by_cases h1 : k < k0
    · simp [tInsert, h1, tGet]
    · by_cases h2 : k = k0
      · simp [tInsert, h1, h2, tGet]
      · have h3 : ¬ k0 = k := fun h => h2 h.symm
        simp [tInsert, h1, h2, tGet, h3, ih]

theorem tGet_mem {α : Type} {l : List (Nat × α)} {k : Nat} {v : α}
    (h : tGet l k = some v) : (k, v) ∈ l := by
  induction l with
  | nil => simp [tGet] at h
  | cons hd tl ih =>
    obtain ⟨k0, v0⟩ := hd
    by_cases hk : k0 = k
    · subst hk
      simp [tGet] at h
      simp [h]
    · simp [tGet, hk] at h
      exact List.mem_cons_of_mem _ (ih h)

theorem mem_tInsert {α : Type} {l : List (Nat × α)} {k : Nat} {v : α}
    {x : Nat × α} (h : x ∈ tInsert k v l) : x = (k, v) ∨ x ∈ l := by
  induction l with
  | nil =>
    simp only [tInsert, List.mem_singleton] at h
    exact Or.inl h
  | cons hd tl ih =>
    obtain ⟨k0, v0⟩ := hd
    by_cases h1 : k < k0
    · simp only [tInsert, if_pos h1, List.mem_cons] at h
      rcases h with h | h | h
      · exact Or.inl h
      · exact Or.inr (by simp [h])
      · exact Or.inr (List.mem_cons_of_mem _ h)
    · by_cases h2 : k = k0
      · simp only [tInsert, if_neg h1, if_pos h2, List.mem_cons] at h
        rcases h with h | h
        · exact Or.inl h
        · exact Or.inr (List.mem_cons_of_mem _ h)
      · simp only [tInsert, if_neg h1, if_neg h2, List.mem_cons] at h
        rcases h with h | h
        · exact Or.inr (by simp [h])
        · rcases ih h with h | h
          · exact Or.inl h
          · exact Or.inr (List.mem_cons_of_mem _ h)

theorem mem_tRemove {α : Type} {l : List (Nat × α)} {k : Nat} {x : Nat × α}
    (h : x ∈ tRemove k l) : x ∈ l := by
  induction l with
  | nil => simp [tRemove] at h
  | cons hd tl ih =>
    obtain ⟨k0, v0⟩ := hd
    by_cases h1 : k0 = k
    · simp only [tRemove, if_pos h1] at h
      exact List.mem_cons_of_mem _ h
    · simp only [tRemove, if_neg h1, List.mem_cons] at h
      rcases h with h | h
      · exact List.mem_cons.mpr (Or.inl h)
      · exact List.mem_cons_of_mem _ (ih h)

theorem tInsert_fresh_append {α : Type} (k : Nat) (v : α) :
    ∀ l : List (Nat × α), (∀ kv ∈ l, kv.1 < k) → tInsert k v l = l ++ [(k, v)] := by
  intro l
  induction l with
  | nil => intro _; simp [tInsert]
  | cons hd tl ih =>
    intro hlt
    obtain ⟨k0, v0⟩ := hd
    have hk0 : k0 < k := hlt (k0, v0) (List.mem_cons_self _ _)
    have h1 : ¬ k < k0 := by omega
    have h2 : ¬ k = k0 := by omega
    simp only [tInsert, if_neg h1, if_neg h2, List.cons_append, List.cons.injEq,
      true_and]
    exact ih fun kv hkv => hlt kv (List.mem_cons_of_mem _ hkv)

theorem forall_tInsert {α : Type} {P : Nat × α → Prop} {l : List (Nat × α)}
    {k : Nat} {v : α} (hv : P (k, v)) (hl : ∀ kv ∈ l, P kv) :
    ∀ kv ∈ tInsert k v l, P kv := by
  intro kv hkv
  rcases mem_tInsert hkv with h | h
  · exact h ▸ hv
  · exact hl kv h

theorem forall_tRemove {α : Type} {P : Nat × α → Prop} {l : List (Nat × α)}
    {k : Nat} (hl : ∀ kv ∈ l, P kv) : ∀ kv ∈ tRemove k l, P kv :=
  fun kv hkv => hl kv (mem_tRemove hkv)

theorem counter_le_step (st : Store) (op : Op) :
    st.counter ≤ (step st op).counter := by
  cases op with
  | opAddStudent t p =>
    by_cases h : (trimIsEmpty p.name || trimIsEmpty p.email) = true <;>
      simp [step, add_student, h]
  | opUpdateStudent t id p =>
    by_cases h : (trimIsEmpty p.name || trimIsEmpty p.email) = true
    · simp [step, update_student, h]
    · cases htg : tGet st.students id <;> simp [step, update_student, h, htg]
  | opDeleteStudent id =>
    cases htg : tGet st.students id <;> simp [step, delete_student, htg]
  | opAddBook t p =>
    by_cases h : (trimIsEmpty p.title || trimIsEmpty p.author) = true <;>
      simp [step, add_book, h]
  | opUpdateBook t id p =>
    by_cases h : (trimIsEmpty p.title || trimIsEmpty p.author) = true
    · simp [step, update_book, h]
    · cases htg : tGet st.books id <;> simp [step, update_book, h, htg]
  | opDeleteBook id =>
    cases htg : tGet st.books id <;> simp [step, delete_book, htg]
  | opAddLoan t p =>
    by_cases h : (p.student_id == 0 || p.book_id == 0 || p.loan_date == 0) = true <;>
      simp [step, add_loan, h]
  | opUpdateLoan t id p =>
    by_cases h : (p.student_id == 0 || p.book_id == 0 || p.loan_date == 0) = true
    · simp [step, update_loan, h]
    · cases htg : tGet st.loans id <;> simp [step, update_loan, h, htg]
  | opDeleteLoan id =>
    cases htg : tGet st.loans id <;> simp [step, delete_loan, htg]

theorem createdIds_counter (st : Store) (op : Op) :
    ∀ x ∈ createdIds st op, x = st.counter ∧ (step st op).counter = st.counter + 1 := by
  cases op with
  | opAddStudent t p =>
    by_cases h : (trimIsEmpty p.name || trimIsEmpty p.email) = true <;>
      simp [createdIds, step, add_student, h]
  | opUpdateStudent t id p => simp [createdIds]
  | opDeleteStudent id => simp [createdIds]
  | opAddBook t p =>
    by_cases h : (trimIsEmpty p.title || trimIsEmpty p.author) = true <;>
      simp [createdIds, step, add_book, h]
  | opUpdateBook t id p => simp [createdIds]
  | opDeleteBook id => simp [createdIds]
  | opAddLoan t p =>
    by_cases h : (p.student_id == 0 || p.book_id == 0 || p.loan_date == 0) = true <;>
      simp [createdIds, step, add_loan, h]
  | opUpdateLoan t id p => simp [createdIds]
  | opDeleteLoan id => simp [createdIds]

theorem issuedIds_lower (ops : List Op) :
    ∀ st : Store, ∀ x ∈ issuedIds st ops, st.counter ≤ x := by
  induction ops with
  | nil => intro st x hx; simp [issuedIds] at hx
  | cons op rest ih =>
    intro st x hx
    simp only [issuedIds, List.mem_append] at hx
    rcases hx with hx | hx
    · exact le_of_eq (createdIds_counter st op x hx).1.symm
    · exact le_trans (counter_le_step st op) (ih (step st op) x hx)

theorem issuedIds_pairwise (ops : List Op) :
    ∀ st : Store, (issuedIds st ops).Pairwise (· < ·) := by
  induction ops with
  | nil => intro st; simp [issuedIds]
  | cons op rest ih =>
    intro st
    simp only [issuedIds]
    rcases hc : createdIds st op with _ | ⟨c, cs⟩
    · simpa using ih (step st op)
    · have hcc := createdIds_counter st op c (by simp [hc])
      have hcs : cs = [] := by
        cases op <;> simp [createdIds] at hc <;>
          split at hc <;> simp_all
      subst hcs
      simp only [List.cons_append, List.nil_append, List.pairwise_cons]
      refine ⟨fun y hy => ?_, ih (step st op)⟩
      have hy' := issuedIds_lower rest (step st op) y hy
      omega

theorem issuedIds_nodup (ops : List Op) (st : Store) :
    (issuedIds st ops).Nodup :=
  (issuedIds_pairwise ops st).imp Nat.ne_of_lt

theorem tsLe_mono {c t t' : Nat} {u : Option Nat} (h : tsLe c u t)
    (ht : t ≤ t') : tsLe c u t' := by
  obtain ⟨h1, h2⟩ := h
  refine ⟨le_trans h1 ht, ?_⟩
  cases u with
  | none => trivial
  | some x => exact le_trans h2 ht

theorem storeTimesLe_mono {st : Store} {t t' : Nat} (h : storeTimesLe st t)
    (ht : t ≤ t') : storeTimesLe st t' := by
  obtain ⟨h1, h2, h3⟩ := h
  exact ⟨fun kv hkv => tsLe_mono (h1 kv hkv) ht,
         fun kv hkv => tsLe_mono (h2 kv hkv) ht,
         fun kv hkv => tsLe_mono (h3 kv hkv) ht⟩

theorem step_times (st : Store) (op : Op) (lo t : Nat)
    (hop : opTime op = some t) (hlt : lo ≤ t)
    (hOK : storeTimesOK st) (hLe : storeTimesLe st lo) :
    storeTimesOK (step st op) ∧ storeTimesLe (step st op) t := by
  obtain ⟨hOK1, hOK2, hOK3⟩ := hOK
  have hLe' := storeTimesLe_mono hLe hlt
  obtain ⟨hLe1, hLe2, hLe3⟩ := hLe'
  obtain ⟨hLo1, hLo2, hLo3⟩ := hLe
  cases op with
  | opAddStudent t0 p =>
    have ht0 : t0 = t := by simpa [opTime] using hop
    subst ht0
    by_cases h : (trimIsEmpty p.name || trimIsEmpty p.email) = true
    · simp only [step, add_student, h, if_pos]
      exact ⟨⟨hOK1, hOK2, hOK3⟩, ⟨hLe1, hLe2, hLe3⟩⟩
    · simp only [step, add_student, h]
      refine ⟨⟨?_, hOK2, hOK3⟩, ⟨?_, hLe2, hLe3⟩⟩
      · exact forall_tInsert (by simp [tsOK]) hOK1
      · exact forall_tInsert (by simp [tsLe]) hLe1
  | opUpdateStudent t0 id p =>
    have ht0 : t0 = t := by simpa [opTime] using hop
    subst ht0
    by_cases h : (trimIsEmpty p.name || trimIsEmpty p.email) = true
    · simp only [step, update_student, h, if_pos]
      exact ⟨⟨hOK1, hOK2, hOK3⟩, ⟨hLe1, hLe2, hLe3⟩⟩
    · rcases htg : tGet st.students id with _ | s0
      · simp only [step, update_student, h, htg]
        exact ⟨⟨hOK1, hOK2, hOK3⟩, ⟨hLe1, hLe2, hLe3⟩⟩
      · have hmem := tGet_mem htg
        have hs0 : tsLe s0.created_at s0.updated_at lo := hLo1 (id, s0) hmem
        simp only [step, update_student, h, htg]
        refine ⟨⟨?_, hOK2, hOK3⟩, ⟨?_, hLe2, hLe3⟩⟩
        · exact forall_tInsert (by simp [tsOK]; exact le_trans hs0.1 hlt) hOK1
        · exact forall_tInsert (by simp [tsLe]; exact le_trans hs0.1 hlt) hLe1
  | opDeleteStudent id => simp [opTime] at hop
  | opAddBook t0 p =>
    have ht0 : t0 = t := by simpa [opTime] using hop
    subst ht0
    by_cases h : (trimIsEmpty p.title || trimIsEmpty p.author) = true
    · simp only [step, add_book, h, if_pos]
      exact ⟨⟨hOK1, hOK2, hOK3⟩, ⟨hLe1, hLe2, hLe3⟩⟩
    · simp only [step, add_book, h]
      refine ⟨⟨hOK1, ?_, hOK3⟩, ⟨hLe1, ?_, hLe3⟩⟩
      · exact forall_tInsert (by simp [tsOK]) hOK2
      · exact forall_tInsert (by simp [tsLe]) hLe2
  | opUpdateBook t0 id p =>
    have ht0 : t0 = t := by simpa [opTime] using hop
    subst ht0
    by_cases h : (trimIsEmpty p.title || trimIsEmpty p.author) = true
    · simp only [step, update_book, h, if_pos]
      exact ⟨⟨hOK1, hOK2, hOK3⟩, ⟨hLe1, hLe2, hLe3⟩⟩
    · rcases htg : tGet st.books id with _ | b0
      · simp only [step, update_book, h, htg]
        exact ⟨⟨hOK1, hOK2, hOK3⟩, ⟨hLe1, hLe2, hLe3⟩⟩
      · have hmem := tGet_mem htg
        have hb0 : tsLe b0.created_at b0.updated_at lo := hLo2 (id, b0) hmem
        simp only [step, update_book, h, htg]
        refine ⟨⟨hOK1, ?_, hOK3⟩, ⟨hLe1, ?_, hLe3⟩⟩
        · exact forall_tInsert (by simp [tsOK]; exact le_trans hb0.1 hlt) hOK2
        · exact forall_tInsert (by simp [tsLe]; exact le_trans hb0.1 hlt) hLe2
  | opDeleteBook id => simp [opTime] at hop
  | opAddLoan t0 p =>
    have ht0 : t0 = t := by simpa [opTime] using hop
    subst ht0
    by_cases h : (p.student_id == 0 || p.book_id == 0 || p.loan_date == 0) = true
    · simp only [step, add_loan, h, if_pos]
      exact ⟨⟨hOK1, hOK2, hOK3⟩, ⟨hLe1, hLe2, hLe3⟩⟩
    · simp only [step, add_loan, h]
      refine ⟨⟨hOK1, hOK2, ?_⟩, ⟨hLe1, hLe2, ?_⟩⟩
      · exact forall_tInsert (by simp [tsOK]) hOK3
      · exact forall_tInsert (by simp [tsLe]) hLe3
  | opUpdateLoan t0 id p =>
    have ht0 : t0 = t := by simpa [opTime] using hop
    subst ht0
    by_cases h : (p.student_id == 0 || p.book_id == 0 || p.loan_date == 0) = true
    · simp only [step, update_loan, h, if_pos]
      exact ⟨⟨hOK1, hOK2, hOK3⟩, ⟨hLe1, hLe2, hLe3⟩⟩
    · rcases htg : tGet st.loans id with _ | l0
      · simp only [step, update_loan, h, htg]
        exact ⟨⟨hOK1, hOK2, hOK3⟩, ⟨hLe1, hLe2, hLe3⟩⟩
      · have hmem := tGet_mem htg
        have hl0 : tsLe l0.created_at l0.updated_at lo := hLo3 (id, l0) hmem
        simp only [step, update_loan, h, htg]
        refine ⟨⟨hOK1, hOK2, ?_⟩, ⟨hLe1, hLe2, ?_⟩⟩
        · exact forall_tInsert (by simp [tsOK]; exact le_trans hl0.1 hlt) hOK3
        · exact forall_tInsert (by simp [tsLe]; exact le_trans hl0.1 hlt) hLe3
  | opDeleteLoan id => simp [opTime] at hop

theorem step_times_none (st : Store) (op : Op) (lo : Nat)
    (hop : opTime op = none)
    (hOK : storeTimesOK st) (hLe : storeTimesLe st lo) :
    storeTimesOK (step st op) ∧ storeTimesLe (step st op) lo := by
  obtain ⟨hOK1, hOK2, hOK3⟩ := hOK
  obtain ⟨hLe1, hLe2, hLe3⟩ := hLe
  cases op with
  | opAddStudent t0 p => simp [opTime] at hop
  | opUpdateStudent t0 id p => simp [opTime] at hop
  | opDeleteStudent id =>
    rcases htg : tGet st.students id with _ | s0 <;>
      simp only [step, delete_student, htg]
    · exact ⟨⟨hOK1, hOK2, hOK3⟩, ⟨hLe1, hLe2, hLe3⟩⟩
    · exact ⟨⟨forall_tRemove hOK1, hOK2, hOK3⟩, ⟨forall_tRemove hLe1, hLe2, hLe3⟩⟩
  | opAddBook t0 p => simp [opTime] at hop
  | opUpdateBook t0 id p => simp [opTime] at hop
  | opDeleteBook id =>
    rcases htg : tGet st.books id with _ | b0 <;>
      simp only [step, delete_book, htg]
    · exact ⟨⟨hOK1, hOK2, hOK3⟩, ⟨hLe1, hLe2, hLe3⟩⟩
    · exact ⟨⟨hOK1, forall_tRemove hOK2, hOK3⟩, ⟨hLe1, forall_tRemove hLe2, hLe3⟩⟩
  | opAddLoan t0 p => simp [opTime] at hop
  | opUpdateLoan t0 id p => simp [opTime] at hop
  | opDeleteLoan id =>
    rcases htg : tGet st.loans id with _ | l0 <;>
      simp only [step, delete_loan, htg]
    · exact ⟨⟨hOK1, hOK2, hOK3⟩, ⟨hLe1, hLe2, hLe3⟩⟩
    · exact ⟨⟨hOK1, hOK2, forall_tRemove hOK3⟩, ⟨hLe1, hLe2, forall_tRemove hLe3⟩⟩

theorem runFrom_times (ops : List Op) :
    ∀ (st : Store) (lo : Nat), timesMono lo ops → storeTimesOK st →
      storeTimesLe st lo → storeTimesOK (runFrom st ops) := by
  induction ops with
  | nil => intro st lo _ hOK _; exact hOK
  | cons op rest ih =>
    intro st lo hmono hOK hLe
    simp only [runFrom]
    rcases hop : opTime op with _ | t
    · simp only [timesMono, hop] at hmono
      obtain ⟨hOK', hLe'⟩ := step_times_none st op lo hop hOK hLe
      exact ih _ lo hmono hOK' hLe'
    · simp only [timesMono, hop] at hmono
      obtain ⟨hlt, hmono'⟩ := hmono
      obtain ⟨hOK', hLe'⟩ := step_times st op lo t hop hlt hOK hLe
      exact ih _ t hmono' hOK' hLe'

theorem add_book_WF (st : Store) (t : Nat) (p : BookPayload)
    (hv : (trimIsEmpty p.title || trimIsEmpty p.author) = false)
    (hwf : booksWF st) :
    booksWF (add_book st t p).2 ∧
      (add_book st t p).2.books.length = st.books.length + 1 := by
  obtain ⟨hsort, hkeys⟩ := hwf
  have hfresh : ∀ kv ∈ st.books, kv.1 < st.counter :=
    fun kv hkv => (hkeys kv hkv).2
  have happ := tInsert_fresh_append st.counter
    (⟨st.counter, p.title, p.author, t, none⟩ : Book) st.books hfresh
  simp only [add_book, hv, Bool.false_eq_true, if_false]
  constructor
  · constructor
    · simp only [happ, List.map_append, List.map_cons, List.map_nil]
      rw [List.pairwise_append]
      refine ⟨hsort, by simp, ?_⟩
      intro a ha b hb
      simp only [List.mem_singleton] at hb
      subst hb
      obtain ⟨kv, hkv, hkv1⟩ := List.mem_map.mp ha
      exact hkv1 ▸ hfresh kv hkv
    · intro kv hkv
      simp only [happ, List.mem_append, List.mem_singleton] at hkv
      rcases hkv with hkv | hkv
      · obtain ⟨h1, h2⟩ := hkeys kv hkv
        refine ⟨h1, ?_⟩
        show kv.1 < st.counter + 1
        omega
      · subst hkv
        refine ⟨rfl, ?_⟩
        show st.counter < st.counter + 1
        omega
  · simp [happ]

theorem runBooks_WF (l : List (Nat × BookPayload)) :
    ∀ st : Store,
      (∀ tp ∈ l, (trimIsEmpty tp.2.title || trimIsEmpty tp.2.author) = false) →
      booksWF st →
      booksWF (runBooks st l) ∧
        (runBooks st l).books.length = st.books.length + l.length := by
  induction l with
  | nil => intro st _ hwf; exact ⟨hwf, by simp [runBooks]⟩
  | cons tp rest ih =>
    intro st hv hwf
    have hv0 := hv tp (List.mem_cons_self _ _)
    obtain ⟨hwf', hlen'⟩ := add_book_WF st tp.1 tp.2 hv0 hwf
    obtain ⟨hwf'', hlen''⟩ :=
      ih _ (fun q hq => hv q (List.mem_cons_of_mem _ hq)) hwf'
    refine ⟨hwf'', ?_⟩
    simp only [runBooks, List.length_cons] at hlen' hlen'' ⊢
    omega

theorem map_id_eq_keys {l : List (Nat × Book)}
    (h : ∀ kv ∈ l, kv.1 = kv.2.id) :
    l.map (fun kv => kv.2.id) = l.map Prod.fst := by
  induction l with
  | nil => rfl
  | cons hd tl ih =>
    simp only [List.map_cons, List.cons.injEq]
    refine ⟨(h hd (List.mem_cons_self _ _)).symm, ?_⟩
    exact ih fun kv hkv => h kv (List.mem_cons_of_mem _ hkv)

theorem dropWhile_replicate_a (n : Nat) :
    List.dropWhile isRustWhitespace (List.replicate (n + 1) 'a') =
      List.replicate (n + 1) 'a' := by
  rw [List.replicate_succ, List.dropWhile_cons]
  simp [show isRustWhitespace 'a' = false from by decide]

theorem trimIsEmpty_aName (n : Nat) : trimIsEmpty (aName n) = false := by
  have h1 : (aName n).data = List.replicate (n + 1) 'a' := rfl
  rw [trimIsEmpty, rustTrim, h1, dropWhile_replicate_a,
    List.reverse_replicate, dropWhile_replicate_a, List.reverse_replicate]
  show (List.replicate (n + 1) 'a').isEmpty = false
  simp [List.replicate_succ]

theorem aStudent_reachable (n : Nat) : studentReachable (aStudent n) := by
  refine ⟨[Op.opAddStudent 0 ⟨aName n, "e"⟩], (0, aStudent n), ?_, rfl⟩
  have hv : (trimIsEmpty (aName n) || trimIsEmpty "e") = false := by
    rw [trimIsEmpty_aName]
    simp [show trimIsEmpty "e" = false from by decide]
  simp only [runFrom, step, add_student, hv, Bool.false_eq_true, if_false]
  simp [emptyStore, tInsert, aStudent]

theorem aStudent_inj : Function.Injective aStudent := by
  intro m n h
  have hd : (aStudent m).name.data = (aStudent n).name.data := by rw [h]
  have hlen := congrArg List.length hd
  simpa [aStudent, aName] using hlen

theorem no_bounded_injective_enc (enc : Student → List (Fin 256))
    (hinj : Function.Injective enc)
    (hb : ∀ x, studentReachable x → (enc x).length ≤ MAX_SIZE) : False := by
  have hfin : {l : List (Fin 256) | l.length ≤ MAX_SIZE}.Finite :=
    List.finite_length_le (Fin 256) MAX_SIZE
  have hfin' : Finite {l : List (Fin 256) | l.length ≤ MAX_SIZE} :=
    hfin.to_subtype
  let f : ℕ → {l : List (Fin 256) | l.length ≤ MAX_SIZE} :=
    fun n => ⟨enc (aStudent n), hb _ (aStudent_reachable n)⟩
  obtain ⟨m, n, hmn, hfeq⟩ := Finite.exists_ne_map_eq_of_infinite f
  apply hmn
  have henc : enc (aStudent m) = enc (aStudent n) :=
    congrArg Subtype.val hfeq
  exact aStudent_inj (hinj henc)

/-- C1: for every valid student payload (all required text fields non-empty
after trimming), `add_student` followed by `get_student` at the id of the
returned record succeeds and returns a record equal to the one returned by
create: same id, same field values, same created_at, same updated_at. -/
theorem C1_create_then_get (st : Store) (t : Nat) (p : StudentPayload)
    (hv : (trimIsEmpty p.name || trimIsEmpty p.email) = false) :
    ∃ (r : Student) (st' : Store),
      add_student st t p = (Except.ok r, st') ∧
      get_student st' r.id = Except.ok r ∧
      r.name = p.name ∧ r.email = p.email ∧ r.created_at = t ∧
      r.updated_at = none := by
  refine ⟨⟨st.counter, p.name, p.email, t, none⟩,
    ⟨st.counter + 1,
     tInsert st.counter ⟨st.counter, p.name, p.email, t, none⟩ st.students,
     st.books, st.loans⟩,
    ?_, ?_, rfl, rfl, rfl, rfl⟩
  · simp [add_student, hv]
  · simp [get_student, tGet_tInsert_self]

/-- Witness for C1: create then get on the fresh store at time 3. -/
theorem C1_create_then_get_witness :
    ((trimIsEmpty "Ann" || trimIsEmpty "ann@x.io") = false) ∧
    ∃ (r : Student) (st' : Store),
      add_student emptyStore 3 ⟨"Ann", "ann@x.io"⟩ = (Except.ok r, st') ∧
      get_student st' r.id = Except.ok r ∧
      r.name = "Ann" ∧ r.email = "ann@x.io" ∧ r.created_at = 3 ∧
      r.updated_at = none :=
  ⟨by decide, C1_create_then_get emptyStore 3 ⟨"Ann", "ann@x.io"⟩ (by decide)⟩

/-- C3 counterexample: for an id absent from the table, `update_student`
with an invalid payload fails with InvalidInput, and not with NotFound
under any message, so the claim's "update(id, payload) fails with
NotFound(id) for every payload" is false at this input (the validation
check runs before the lookup). -/
theorem C3_counterexample :
    update_student emptyStore 5 0 ⟨"", ""⟩ =
      (Except.error (Error.InvalidInput "Name and email cannot be empty."),
       emptyStore) ∧
    ∀ m : String, update_student emptyStore 5 0 ⟨"", ""⟩ ≠
      (Except.error (Error.NotFound m), emptyStore) := by
  refine ⟨by decide, fun m h => ?_⟩
  have h1 : (update_student emptyStore 5 0 ⟨"", ""⟩).1 =
      Except.error (Error.InvalidInput "Name and email cannot be empty.") := by
    decide
  rw [h] at h1
  simp at h1

/-- C3 (amended): for an id absent from a table, get fails with NotFound,
delete fails with NotFound, and update fails with NotFound for every
payload that passes validation, while a payload that fails validation
makes update fail with InvalidInput instead (the handlers validate before
the lookup); none of these failing calls changes the store. This holds for
each of the three entity kinds. -/
theorem C3_not_found (st : Store) (t id : Nat) (ps : StudentPayload)
    (pb : BookPayload) (pl : LoanPayload)
    (habs_s : tGet st.students id = none)
    (habs_b : tGet st.books id = none)
    (habs_l : tGet st.loans id = none) :
    (get_student st id = Except.error (Error.NotFound
       ("A student with id=" ++ toString id ++ " not found.")) ∧
     delete_student st id = (Except.error (Error.NotFound
       ("Couldn\x27t delete a student with id=" ++ toString id ++
        ". Student not found.")), st) ∧
     ((trimIsEmpty ps.name || trimIsEmpty ps.email) = false →
       update_student st t id ps = (Except.error (Error.NotFound
         ("Couldn\x27t update a student with id=" ++ toString id ++
          ". Student not found.")), st)) ∧
     ((trimIsEmpty ps.name || trimIsEmpty ps.email) = true →
       update_student st t id ps = (Except.error
         (Error.InvalidInput "Name and email cannot be empty."), st))) ∧
    (get_book st id = Except.error (Error.NotFound
       ("A book with id=" ++ toString id ++ " not found.")) ∧
     delete_book st id = (Except.error (Error.NotFound
       ("Couldn\x27t delete a book with id=" ++ toString id ++
        ". Book not found.")), st) ∧
     ((trimIsEmpty pb.title || trimIsEmpty pb.author) = false →
       update_book st t id pb = (Except.error (Error.NotFound
         ("Couldn\x27t update a book with id=" ++ toString id ++
          ". Book not found.")), st)) ∧
     ((trimIsEmpty pb.title || trimIsEmpty pb.author) = true →
       update_book st t id pb = (Except.error
         (Error.InvalidInput "Title and author cannot be empty."), st))) ∧
    (get_loan st id = Except.error (Error.NotFound
       ("A loan with id=" ++ toString id ++ " not found.")) ∧
     delete_loan st id = (Except.error (Error.NotFound
       ("Couldn\x27t delete a loan with id=" ++ toString id ++
        ". Loan not found.")), st) ∧
     ((pl.student_id == 0 || pl.book_id == 0 || pl.loan_date == 0) = false →
       update_loan st t id pl = (Except.error (Error.NotFound
         ("Couldn\x27t update a loan with id=" ++ toString id ++
          ". Loan not found.")), st)) ∧
     ((pl.student_id == 0 || pl.book_id == 0 || pl.loan_date == 0) = true →
       update_loan st t id pl = (Except.error (Error.InvalidInput
         "Student ID, Book ID, and Loan Date must be non-zero."), st))) := by
  refine ⟨⟨?_, ?_, fun hv => ?_, fun hv => ?_⟩,
    ⟨?_, ?_, fun hv => ?_, fun hv => ?_⟩,
    ⟨?_, ?_, fun hv => ?_, fun hv => ?_⟩⟩
  · simp [get_student, habs_s]
  · simp [delete_student, habs_s]
  · simp [update_student, habs_s, hv]
  · simp [update_student, hv]
  · simp [get_book, habs_b]
  · simp [delete_book, habs_b]
  · simp [update_book, habs_b, hv]
  · simp [update_book, hv]
  · simp [get_loan, habs_l]
  · simp [delete_loan, habs_l]
  · simp [update_loan, habs_l, hv]
  · simp [update_loan, hv]

/-- Witness for C3 (amended): id 9 was never created in the fresh store;
valid payloads for all three kinds. -/
theorem C3_not_found_witness :
    (tGet emptyStore.students 9 = none) ∧
    (tGet emptyStore.books 9 = none) ∧
    (tGet emptyStore.loans 9 = none) ∧
    ((get_student emptyStore 9 = Except.error (Error.NotFound
        ("A student with id=" ++ toString 9 ++ " not found.")) ∧
      delete_student emptyStore 9 = (Except.error (Error.NotFound
        ("Couldn\x27t delete a student with id=" ++ toString 9 ++
         ". Student not found.")), emptyStore) ∧
      ((trimIsEmpty "Zed" || trimIsEmpty "z@z.io") = false →
        update_student emptyStore 4 9 ⟨"Zed", "z@z.io"⟩ =
          (Except.error (Error.NotFound
            ("Couldn\x27t update a student with id=" ++ toString 9 ++
             ". Student not found.")), emptyStore)) ∧
      ((trimIsEmpty "Zed" || trimIsEmpty "z@z.io") = true →
        update_student emptyStore 4 9 ⟨"Zed", "z@z.io"⟩ =
          (Except.error
            (Error.InvalidInput "Name and email cannot be empty."),
           emptyStore))) ∧
     (get_book emptyStore 9 = Except.error (Error.NotFound
        ("A book with id=" ++ toString 9 ++ " not found.")) ∧
      delete_book emptyStore 9 = (Except.error (Error.NotFound
        ("Couldn\x27t delete a book with id=" ++ toString 9 ++
         ". Book not found.")), emptyStore) ∧
      ((trimIsEmpty "T" || trimIsEmpty "A") = false →
        update_book emptyStore 4 9 ⟨"T", "A"⟩ =
          (Except.error (Error.NotFound
            ("Couldn\x27t update a book with id=" ++ toString 9 ++
             ". Book not found.")), emptyStore)) ∧
      ((trimIsEmpty "T" || trimIsEmpty "A") = true →
        update_book emptyStore 4 9 ⟨"T", "A"⟩ =
          (Except.error
            (Error.InvalidInput "Title and author cannot be empty."),
           emptyStore))) ∧
     (get_loan emptyStore 9 = Except.error (Error.NotFound
        ("A loan with id=" ++ toString 9 ++ " not found.")) ∧
      delete_loan emptyStore 9 = (Except.error (Error.NotFound
        ("Couldn\x27t delete a loan with id=" ++ toString 9 ++
         ". Loan not found.")), emptyStore) ∧
      (((1 : Nat) == 0 || (2 : Nat) == 0 || (3 : Nat) == 0) = false →
        update_loan emptyStore 4 9 ⟨1, 2, 3⟩ =
          (Except.error (Error.NotFound
            ("Couldn\x27t update a loan with id=" ++ toString 9 ++
             ". Loan not found.")), emptyStore)) ∧
      (((1 : Nat) == 0 || (2 : Nat) == 0 || (3 : Nat) == 0) = true →
        update_loan emptyStore 4 9 ⟨1, 2, 3⟩ =
          (Except.error (Error.InvalidInput
            "Student ID, Book ID, and Loan Date must be non-zero."),
           emptyStore)))) :=
  ⟨rfl, rfl, rfl,
   C3_not_found emptyStore 4 9 ⟨"Zed", "z@z.io"⟩ ⟨"T", "A"⟩ ⟨1, 2, 3⟩
     rfl rfl rfl⟩

/-- C4: an invalid payload (empty-after-trim required text field for
Student and Book, zero required numeric field for Loan) makes create fail
with InvalidInput leaving the whole store - the ID Allocator counter
included - unchanged, and makes update fail with InvalidInput likewise
changing nothing. -/
theorem C4_invalid_input (st : Store) (t id : Nat) (ps : StudentPayload)
    (pb : BookPayload) (pl : LoanPayload)
    (hs : (trimIsEmpty ps.name || trimIsEmpty ps.email) = true)
    (hb : (trimIsEmpty pb.title || trimIsEmpty pb.author) = true)
    (hl : (pl.student_id == 0 || pl.book_id == 0 || pl.loan_date == 0) = true) :
    add_student st t ps =
      (Except.error (Error.InvalidInput "Name and email cannot be empty."), st) ∧
    update_student st t id ps =
      (Except.error (Error.InvalidInput "Name and email cannot be empty."), st) ∧
    add_book st t pb =
      (Except.error (Error.InvalidInput "Title and author cannot be empty."), st) ∧
    update_book st t id pb =
      (Except.error (Error.InvalidInput "Title and author cannot be empty."), st) ∧
    add_loan st t pl =
      (Except.error (Error.InvalidInput
        "Student ID, Book ID, and Loan Date must be non-zero."), st) ∧
    update_loan st t id pl =
      (Except.error (Error.InvalidInput
        "Student ID, Book ID, and Loan Date must be non-zero."), st) ∧
    (add_student st t ps).2.counter = st.counter ∧
    (add_book st t pb).2.counter = st.counter ∧
    (add_loan st t pl).2.counter = st.counter := by
  refine ⟨?_, ?_, ?_, ?_, ?_, ?_, ?_, ?_, ?_⟩ <;>
    simp [add_student, update_student, add_book, update_book, add_loan,
      update_loan, hs, hb, hl]

/-- Witness for C4: whitespace-only name, empty title, zero student_id. -/
theorem C4_invalid_input_witness :
    ((trimIsEmpty "   " || trimIsEmpty "a@b.c") = true) ∧
    ((trimIsEmpty "" || trimIsEmpty "Auth") = true) ∧
    (((0 : Nat) == 0 || (2 : Nat) == 0 || (3 : Nat) == 0) = true) ∧
    add_student emptyStore 6 ⟨"   ", "a@b.c"⟩ =
      (Except.error (Error.InvalidInput "Name and email cannot be empty."),
       emptyStore) ∧
    add_loan emptyStore 6 ⟨0, 2, 3⟩ =
      (Except.error (Error.InvalidInput
        "Student ID, Book ID, and Loan Date must be non-zero."),
       emptyStore) :=
  ⟨by decide, by decide, by decide,
   (C4_invalid_input emptyStore 6 0 ⟨"   ", "a@b.c"⟩ ⟨"", "Auth"⟩ ⟨0, 2, 3⟩
     (by decide) (by decide) (by decide)).1,
   (C4_invalid_input emptyStore 6 0 ⟨"   ", "a@b.c"⟩ ⟨"", "Auth"⟩ ⟨0, 2, 3⟩
     (by decide) (by decide) (by decide)).2.2.2.2.1⟩

/-- C7 counterexample: the first successful create on the fresh store
returns the record with id 0, not id 1 as the claim's scenario states: the
counter cell starts at 0 and each create receives the pre-increment
value. -/
theorem C7_counterexample :
    (add_book emptyStore 7 ⟨"Dune", "Herbert"⟩).1 =
      Except.ok ⟨0, "Dune", "Herbert", 7, none⟩ ∧
    (add_book emptyStore 7 ⟨"Dune", "Herbert"⟩).1 ≠
      Except.ok ⟨1, "Dune", "Herbert", 7, none⟩ := by
  decide

/-- C7 (amended): on a fresh store (counter at its initial value 0, tables
empty) the first successful create returns the record with id 0,
created_at equal to the time observed during the call, and updated_at
absent; the store afterwards holds exactly that record. -/
theorem C7_first_create (t : Nat) (p : BookPayload)
    (hv : (trimIsEmpty p.title || trimIsEmpty p.author) = false) :
    add_book emptyStore t p =
      (Except.ok ⟨0, p.title, p.author, t, none⟩,
       { counter := 1, students := [],
         books := [(0, ⟨0, p.title, p.author, t, none⟩)], loans := [] }) := by
  simp [add_book, hv, emptyStore, tInsert]

/-- Witness for C7 (amended): create(title="Dune", author="Herbert"). -/
theorem C7_first_create_witness :
    ((trimIsEmpty "Dune" || trimIsEmpty "Herbert") = false) ∧
    add_book emptyStore 7 ⟨"Dune", "Herbert"⟩ =
      (Except.ok ⟨0, "Dune", "Herbert", 7, none⟩,
       { counter := 1, students := [],
         books := [(0, ⟨0, "Dune", "Herbert", 7, none⟩)], loans := [] }) :=
  ⟨by decide, C7_first_create 7 ⟨"Dune", "Herbert"⟩ (by decide)⟩

/-- C10: trimming is used only for validation, never for storage: for a
payload that passes validation, create and update both return and store
the field strings exactly as given, surrounding white space included. -/
theorem C10_fields_stored_verbatim (st : Store) (t id : Nat)
    (p : StudentPayload) (s0 : Student)
    (hv : (trimIsEmpty p.name || trimIsEmpty p.email) = false)
    (hget : tGet st.students id = some s0) (hid : s0.id = id) :
    (∃ (r : Student) (st' : Store),
       add_student st t p = (Except.ok r, st') ∧
       r.name = p.name ∧ r.email = p.email ∧
       tGet st'.students r.id = some r) ∧
    (∃ (r : Student) (st' : Store),
       update_student st t id p = (Except.ok r, st') ∧
       r.name = p.name ∧ r.email = p.email ∧
       tGet st'.students id = some r) := by
  subst hid
  constructor
  · refine ⟨⟨st.counter, p.name, p.email, t, none⟩,
      ⟨st.counter + 1,
       tInsert st.counter ⟨st.counter, p.name, p.email, t, none⟩ st.students,
       st.books, st.loans⟩,
      ?_, rfl, rfl, tGet_tInsert_self _ _ _⟩
    simp [add_student, hv]
  · refine ⟨⟨s0.id, p.name, p.email, s0.created_at, some t⟩,
      ⟨st.counter,
       tInsert s0.id ⟨s0.id, p.name, p.email, s0.created_at, some t⟩
         st.students,
       st.books, st.loans⟩,
      ?_, rfl, rfl, tGet_tInsert_self _ _ _⟩
    simp [update_student, hv, hget]

/-- Witness for C10: the name " Alice " (surrounding spaces) is stored and
returned verbatim by create and update. -/
theorem C10_fields_stored_verbatim_witness :
    ((trimIsEmpty " Alice " || trimIsEmpty "a@b.c") = false) ∧
    (tGet ([(0, ⟨0, "Old", "o@o.o", 1, none⟩)] : List (Nat × Student)) 0 =
      some ⟨0, "Old", "o@o.o", 1, none⟩) ∧
    ((∃ (r : Student) (st' : Store),
       add_student ⟨1, [(0, ⟨0, "Old", "o@o.o", 1, none⟩)], [], []⟩ 2
           ⟨" Alice ", "a@b.c"⟩ = (Except.ok r, st') ∧
       r.name = " Alice " ∧ r.email = "a@b.c" ∧
       tGet st'.students r.id = some r) ∧
    (∃ (r : Student) (st' : Store),
       update_student ⟨1, [(0, ⟨0, "Old", "o@o.o", 1, none⟩)], [], []⟩ 2 0
           ⟨" Alice ", "a@b.c"⟩ = (Except.ok r, st') ∧
       r.name = " Alice " ∧ r.email = "a@b.c" ∧
       tGet st'.students 0 = some r)) :=
  ⟨by decide, by decide,
   C10_fields_stored_verbatim ⟨1, [(0, ⟨0, "Old", "o@o.o", 1, none⟩)], [], []⟩
     2 0 ⟨" Alice ", "a@b.c"⟩ ⟨0, "Old", "o@o.o", 1, none⟩
     (by decide) (by decide) rfl⟩

/-- C2: for an id present in the book table (entry keyed by the record's
own id) and a valid payload, `update_book` replaces every payload-carried
field, sets updated_at to the observed time, leaves id and created_at
unchanged, writes the full record back into the table, and returns it;
when the time source is non-decreasing (created_at was observed no later
than now) updated_at >= created_at holds afterwards, and a second update
at a later time yields a non-decreasing updated_at. -/
theorem C2_update_book (st : Store) (t t2 id : Nat) (p p2 : BookPayload)
    (b : Book)
    (hv : (trimIsEmpty p.title || trimIsEmpty p.author) = false)
    (hv2 : (trimIsEmpty p2.title || trimIsEmpty p2.author) = false)
    (hget : tGet st.books id = some b) (hid : b.id = id) (ht : t ≤ t2) :
    ∃ (b' : Book) (st' : Store),
      update_book st t id p = (Except.ok b', st') ∧
      b'.id = b.id ∧ b'.created_at = b.created_at ∧
      b'.title = p.title ∧ b'.author = p.author ∧
      b'.updated_at = some t ∧
      st'.books = tInsert id b' st.books ∧
      tGet st'.books id = some b' ∧
      (b.created_at ≤ t → ∀ u, b'.updated_at = some u → b'.created_at ≤ u) ∧
      ∃ (b'' : Book) (st'' : Store),
        update_book st' t2 id p2 = (Except.ok b'', st'') ∧
        b''.id = b.id ∧ b''.created_at = b.created_at ∧
        b''.updated_at = some t2 ∧
        (∀ u u2, b'.updated_at = some u → b''.updated_at = some u2 → u ≤ u2) := by
  subst hid
  refine ⟨⟨b.id, p.title, p.author, b.created_at, some t⟩,
    ⟨st.counter, st.students,
     tInsert b.id ⟨b.id, p.title, p.author, b.created_at, some t⟩ st.books,
     st.loans⟩,
    ?_, rfl, rfl, rfl, rfl, rfl, rfl, tGet_tInsert_self _ _ _, ?_, ?_⟩
  · simp [update_book, hv, hget]
  · intro h u hu
    simp only [Option.some.injEq] at hu
    subst hu
    exact h
  · refine ⟨⟨b.id, p2.title, p2.author, b.created_at, some t2⟩,
      ⟨st.counter, st.students,
       tInsert b.id ⟨b.id, p2.title, p2.author, b.created_at, some t2⟩
         (tInsert b.id ⟨b.id, p.title, p.author, b.created_at, some t⟩
           st.books),
       st.loans⟩,
      ?_, rfl, rfl, rfl, ?_⟩
    · simp [update_book, hv2, tGet_tInsert_self]
    · intro u u2 hu hu2
      simp only [Option.some.injEq] at hu hu2
      subst hu
      subst hu2
      exact ht

/-- Witness for C2: the record (id 0, created_at 1) updated at times 2 and
then 3. -/
theorem C2_update_book_witness :
    ((trimIsEmpty "T1" || trimIsEmpty "A1") = false) ∧
    ((trimIsEmpty "T2" || trimIsEmpty "A2") = false) ∧
    (tGet (⟨1, [], [(0, ⟨0, "T0", "A0", 1, none⟩)], []⟩ : Store).books 0 =
      some ⟨0, "T0", "A0", 1, none⟩) ∧
    ((2 : Nat) ≤ 3) ∧
    ∃ (b' : Book) (st' : Store),
      update_book ⟨1, [], [(0, ⟨0, "T0", "A0", 1, none⟩)], []⟩ 2 0
          ⟨"T1", "A1"⟩ = (Except.ok b', st') ∧
      b'.id = 0 ∧ b'.created_at = 1 ∧
      b'.title = "T1" ∧ b'.author = "A1" ∧
      b'.updated_at = some 2 ∧
      st'.books = tInsert 0 b' [(0, ⟨0, "T0", "A0", 1, none⟩)] ∧
      tGet st'.books 0 = some b' ∧
      ((1 : Nat) ≤ 2 → ∀ u, b'.updated_at = some u → b'.created_at ≤ u) ∧
      ∃ (b'' : Book) (st'' : Store),
        update_book st' 3 0 ⟨"T2", "A2"⟩ = (Except.ok b'', st'') ∧
        b''.id = 0 ∧ b''.created_at = 1 ∧
        b''.updated_at = some 3 ∧
        (∀ u u2, b'.updated_at = some u → b''.updated_at = some u2 → u ≤ u2) :=
  ⟨by decide, by decide, by decide, by decide,
   C2_update_book ⟨1, [], [(0, ⟨0, "T0", "A0", 1, none⟩)], []⟩ 2 3 0
     ⟨"T1", "A1"⟩ ⟨"T2", "A2"⟩ ⟨0, "T0", "A0", 1, none⟩
     (by decide) (by decide) (by decide) rfl (by decide)⟩

/-- C5: every successful create reads the current counter value, persists
counter + 1, and is returned the pre-increment value as its record id, for
each of the three kinds sharing the one counter; and across any sequence
of calls the issued ids are strictly increasing and never repeat, even
after the record holding an id is deleted. -/
theorem C5_allocator (st : Store) (ops : List Op) (t : Nat)
    (ps : StudentPayload) (pb : BookPayload) (pl : LoanPayload)
    (hs : (trimIsEmpty ps.name || trimIsEmpty ps.email) = false)
    (hb : (trimIsEmpty pb.title || trimIsEmpty pb.author) = false)
    (hl : (pl.student_id == 0 || pl.book_id == 0 || pl.loan_date == 0) = false) :
    (add_student st t ps).1 =
      Except.ok ⟨st.counter, ps.name, ps.email, t, none⟩ ∧
    (add_student st t ps).2.counter = st.counter + 1 ∧
    (add_book st t pb).1 =
      Except.ok ⟨st.counter, pb.title, pb.author, t, none⟩ ∧
    (add_book st t pb).2.counter = st.counter + 1 ∧
    (add_loan st t pl).1 =
      Except.ok ⟨st.counter, pl.student_id, pl.book_id, pl.loan_date, t, none⟩ ∧
    (add_loan st t pl).2.counter = st.counter + 1 ∧
    (issuedIds st ops).Pairwise (· < ·) ∧
    (issuedIds st ops).Nodup := by
  refine ⟨?_, ?_, ?_, ?_, ?_, ?_,
    issuedIds_pairwise ops st, issuedIds_nodup ops st⟩ <;>
    simp [add_student, add_book, add_loan, hs, hb, hl]

/-- Witness for C5: a concrete run with two kinds of creates, an invalid
create, and a delete in between. -/
theorem C5_allocator_witness :
    ((trimIsEmpty "Al" || trimIsEmpty "e@e.e") = false) ∧
    ((trimIsEmpty "B" || trimIsEmpty "A") = false) ∧
    (((1 : Nat) == 0 || (2 : Nat) == 0 || (3 : Nat) == 0) = false) ∧
    (add_student emptyStore 1 ⟨"Al", "e@e.e"⟩).1 =
      Except.ok ⟨0, "Al", "e@e.e", 1, none⟩ ∧
    (add_student emptyStore 1 ⟨"Al", "e@e.e"⟩).2.counter = 0 + 1 ∧
    (issuedIds emptyStore
      [Op.opAddStudent 1 ⟨"Al", "e@e.e"⟩, Op.opAddBook 2 ⟨"B", "A"⟩,
       Op.opAddStudent 2 ⟨"", ""⟩, Op.opDeleteStudent 0,
       Op.opAddLoan 3 ⟨1, 2, 3⟩]).Pairwise (· < ·) ∧
    (issuedIds emptyStore
      [Op.opAddStudent 1 ⟨"Al", "e@e.e"⟩, Op.opAddBook 2 ⟨"B", "A"⟩,
       Op.opAddStudent 2 ⟨"", ""⟩, Op.opDeleteStudent 0,
       Op.opAddLoan 3 ⟨1, 2, 3⟩]).Nodup :=
  ⟨by decide, by decide, by decide,
   (C5_allocator emptyStore
     [Op.opAddStudent 1 ⟨"Al", "e@e.e"⟩, Op.opAddBook 2 ⟨"B", "A"⟩,
      Op.opAddStudent 2 ⟨"", ""⟩, Op.opDeleteStudent 0,
      Op.opAddLoan 3 ⟨1, 2, 3⟩] 1 ⟨"Al", "e@e.e"⟩ ⟨"B", "A"⟩ ⟨1, 2, 3⟩
     (by decide) (by decide) (by decide)).1,
   (C5_allocator emptyStore
     [Op.opAddStudent 1 ⟨"Al", "e@e.e"⟩, Op.opAddBook 2 ⟨"B", "A"⟩,
      Op.opAddStudent 2 ⟨"", ""⟩, Op.opDeleteStudent 0,
      Op.opAddLoan 3 ⟨1, 2, 3⟩] 1 ⟨"Al", "e@e.e"⟩ ⟨"B", "A"⟩ ⟨1, 2, 3⟩
     (by decide) (by decide) (by decide)).2.1,
   (C5_allocator emptyStore
     [Op.opAddStudent 1 ⟨"Al", "e@e.e"⟩, Op.opAddBook 2 ⟨"B", "A"⟩,
      Op.opAddStudent 2 ⟨"", ""⟩, Op.opDeleteStudent 0,
      Op.opAddLoan 3 ⟨1, 2, 3⟩] 1 ⟨"Al", "e@e.e"⟩ ⟨"B", "A"⟩ ⟨1, 2, 3⟩
     (by decide) (by decide) (by decide)).2.2.2.2.2.2.1,
   (C5_allocator emptyStore
     [Op.opAddStudent 1 ⟨"Al", "e@e.e"⟩, Op.opAddBook 2 ⟨"B", "A"⟩,
      Op.opAddStudent 2 ⟨"", ""⟩, Op.opDeleteStudent 0,
      Op.opAddLoan 3 ⟨1, 2, 3⟩] 1 ⟨"Al", "e@e.e"⟩ ⟨"B", "A"⟩ ⟨1, 2, 3⟩
     (by decide) (by decide) (by decide)).2.2.2.2.2.2.2⟩

/-- C6: `get_all_books` always succeeds; on an empty table it returns the
empty sequence; after N successful creates on an initially empty table
(no intervening deletes) it returns exactly N records whose ids are
pairwise distinct and appear in ascending id order. -/
theorem C6_get_all_books (st : Store) (l : List (Nat × BookPayload))
    (hempty : st.books = [])
    (hv : ∀ tp ∈ l, (trimIsEmpty tp.2.title || trimIsEmpty tp.2.author) = false) :
    (∀ st0 : Store, ∃ bs, get_all_books st0 = Except.ok bs) ∧
    get_all_books st = Except.ok [] ∧
    ∃ bs, get_all_books (runBooks st l) = Except.ok bs ∧
      bs.length = l.length ∧
      (bs.map (fun b => b.id)).Pairwise (· < ·) ∧
      (bs.map (fun b => b.id)).Nodup := by
  have hwf : booksWF st := by
    refine ⟨?_, ?_⟩ <;> rw [hempty] <;> simp
  obtain ⟨⟨hsort, hkeys⟩, hlen⟩ := runBooks_WF l st hv hwf
  have hids : ((runBooks st l).books.map (Prod.snd : Nat × Book → Book)).map
        (fun b => b.id) = (runBooks st l).books.map Prod.fst := by
    rw [List.map_map]
    exact map_id_eq_keys fun kv hkv => (hkeys kv hkv).1
  refine ⟨fun st0 => ⟨_, rfl⟩, by simp [get_all_books, hempty],
    (runBooks st l).books.map (Prod.snd : Nat × Book → Book), rfl, ?_, ?_, ?_⟩
  · simp only [List.length_map, hlen, hempty, List.length_nil]
    omega
  · rw [hids]
    exact hsort
  · rw [hids]
    exact hsort.imp Nat.ne_of_lt

/-- Witness for C6: two creates on the fresh store. -/
theorem C6_get_all_books_witness :
    (emptyStore.books = []) ∧
    (∀ tp ∈ ([(4, ⟨"B1", "A1"⟩), (5, ⟨"B2", "A2"⟩)] :
        List (Nat × BookPayload)),
      (trimIsEmpty tp.2.title || trimIsEmpty tp.2.author) = false) ∧
    get_all_books emptyStore = Except.ok [] ∧
    ∃ bs, get_all_books (runBooks emptyStore
        [(4, ⟨"B1", "A1"⟩), (5, ⟨"B2", "A2"⟩)]) = Except.ok bs ∧
      bs.length = ([(4, (⟨"B1", "A1"⟩ : BookPayload)),
        (5, ⟨"B2", "A2"⟩)]).length ∧
      (bs.map (fun b => b.id)).Pairwise (· < ·) ∧
      (bs.map (fun b => b.id)).Nodup :=
  ⟨rfl, by decide,
   (C6_get_all_books emptyStore [(4, ⟨"B1", "A1"⟩), (5, ⟨"B2", "A2"⟩)]
     rfl (by decide)).2.1,
   (C6_get_all_books emptyStore [(4, ⟨"B1", "A1"⟩), (5, ⟨"B2", "A2"⟩)]
     rfl (by decide)).2.2⟩

/-- C8: along any sequence of calls whose observed times are
non-decreasing, every record of every table satisfies
created_at <= updated_at whenever updated_at is present: the invariant
holds in the final store reached from any store satisfying it whose
stored stamps do not exceed the starting time bound. -/
theorem C8_timestamps (st : Store) (lo : Nat) (ops : List Op)
    (hmono : timesMono lo ops) (hOK : storeTimesOK st)
    (hLe : storeTimesLe st lo) :
    storeTimesOK (runFrom st ops) :=
  runFrom_times ops st lo hmono hOK hLe

/-- Witness for C8: create at time 5, update at time 7, then a delete. -/
theorem C8_timestamps_witness :
    timesMono 0 [Op.opAddStudent 5 ⟨"Al", "e@e.e"⟩,
      Op.opUpdateStudent 7 0 ⟨"Bo", "e@e.e"⟩, Op.opDeleteBook 3] ∧
    storeTimesOK emptyStore ∧ storeTimesLe emptyStore 0 ∧
    storeTimesOK (runFrom emptyStore [Op.opAddStudent 5 ⟨"Al", "e@e.e"⟩,
      Op.opUpdateStudent 7 0 ⟨"Bo", "e@e.e"⟩, Op.opDeleteBook 3]) :=
  ⟨by simp [timesMono, opTime],
   by simp [storeTimesOK, emptyStore],
   by simp [storeTimesLe, emptyStore],
   C8_timestamps emptyStore 0
     [Op.opAddStudent 5 ⟨"Al", "e@e.e"⟩,
      Op.opUpdateStudent 7 0 ⟨"Bo", "e@e.e"⟩, Op.opDeleteBook 3]
     (by simp [timesMono, opTime])
     (by simp [storeTimesOK, emptyStore])
     (by simp [storeTimesLe, emptyStore])⟩

/-- C9 counterexample: no codec whose decode is the exact left inverse of
encode can keep every reachable student record within the declared
MAX_SIZE of 1024 bytes: records with arbitrarily long names are reachable
(the handlers never cap string lengths), and finitely many byte sequences
of length at most 1024 cannot injectively encode them all. This refutes
the claim's conjunction of the round-trip law and the size bound. -/
theorem C9_counterexample :
    ¬ ∃ (enc : Student → List (Fin 256)) (dec : List (Fin 256) → Student),
        (∀ x, dec (enc x) = x) ∧
        ∀ x, studentReachable x → (enc x).length ≤ MAX_SIZE := by
  rintro ⟨enc, dec, hinv, hb⟩
  have hinj : Function.Injective enc := fun a b h => by
    have h2 := congrArg dec h
    rwa [hinv, hinv] at h2
  exact no_bounded_injective_enc enc hinj hb

/-- C9 (amended): the round-trip law decode(encode(x)) = x forces encode
to be injective, and no injective encoding into byte sequences can respect
the declared MAX_SIZE bound on every reachable record, because records
with unboundedly long string fields are reachable; the bound can only hold
under an external restriction on field lengths, which the code does not
enforce. -/
theorem C9_no_bounded_codec :
    ¬ ∃ enc : Student → List (Fin 256),
        Function.Injective enc ∧
        ∀ x, studentReachable x → (enc x).length ≤ MAX_SIZE := by
  rintro ⟨enc, hinj, hb⟩
  exact no_bounded_injective_enc enc hinj hb
